import Mathlib

/-!
Verification of the calculation-service core: the arithmetic engine
(`app/operations/calc_utils.py`), the statistics aggregator
(`app/operations/statistics.py`), and the record-scoped routes
(`app/main.py` and the patched PUT route).

Numbers are modelled by `ℚ` (the source works with Python numbers; the
spec sets floating-point rounding aside), timestamps by `ℕ`, identifiers
by `ℕ`, and the record store by a list of records.  Fallible operations
return `Except`.
-/

/-- Errors raised by `compute_result` (`ValueError` messages in the source,
distinguished here by which message is raised). -/
inductive CalcError where
  | InvalidInput
  | DivisionByZero
  | UnsupportedOperation (tag : String)
deriving DecidableEq

/-- Python's `str.lower()` restricted to the tags the program uses:
character-wise lowercasing. -/
def lower (s : String) : String := ⟨s.data.map Char.toLower⟩

/-- The division loop of `compute_result`: `result /= v` for each `v`,
raising "Cannot divide by zero." when a divisor is zero. -/
def div_fold (acc : ℚ) : List ℚ → Except CalcError ℚ
  | [] => Except.ok acc
  | v :: vs => if v = 0 then Except.error CalcError.DivisionByZero else div_fold (acc / v) vs

/-- `compute_result(calc_type, inputs)` from `app/operations/calc_utils.py`:
length check first, then dispatch on the lowercased tag. -/
def compute_result (calc_type : String) (inputs : List ℚ) : Except CalcError ℚ :=
  if inputs.length < 2 then Except.error CalcError.InvalidInput
  else
    let t := lower calc_type
    if t = "addition" then Except.ok inputs.sum
    else if t = "subtraction" then Except.ok ((inputs.drop 1).foldl (fun r v => r - v) inputs.headI)
    else if t = "multiplication" then Except.ok (inputs.foldl (fun r v => r * v) 1)
    else if t = "division" then div_fold inputs.headI (inputs.drop 1)
    else Except.error (CalcError.UnsupportedOperation calc_type)

/-- Left-to-right repeated subtraction equals subtracting the sum. -/
theorem foldl_sub_eq_sub_sum (l : List ℚ) (a : ℚ) :
    l.foldl (fun r v => r - v) a = a - l.sum := by
  induction l generalizing a with
  | nil => simp
  | cons x xs ih =>
    simp only [List.foldl_cons, ih, List.sum_cons]
    ring

/-- The multiplication loop computes the product of the list. -/
theorem foldl_mul_eq_prod (l : List ℚ) :
    l.foldl (fun r v => r * v) 1 = l.prod := by
  rw [List.prod_eq_foldl]

/-- When no divisor is zero, the division loop computes `acc` divided by
the product of the divisors. -/
theorem div_fold_ok (l : List ℚ) (a : ℚ) (hz : ∀ v ∈ l, v ≠ 0) :
    div_fold a l = Except.ok (a / l.prod) := by
  induction l generalizing a with
  | nil => simp [div_fold]
  | cons x xs ih =>
    have hx : x ≠ 0 := hz x (by simp)
    have hxs : ∀ v ∈ xs, v ≠ 0 := fun v hv => hz v (by simp [hv])
    simp only [div_fold, if_neg hx, ih _ hxs, List.prod_cons, div_div]

/-- The division loop fails (necessarily with `DivisionByZero`) exactly
when some divisor in the list is zero. -/
theorem div_fold_error_iff (l : List ℚ) (a : ℚ) :
    div_fold a l = Except.error CalcError.DivisionByZero ↔ ∃ v ∈ l, v = 0 := by
  induction l generalizing a with
  | nil => simp [div_fold]
  | cons x xs ih =>
    by_cases hx : x = 0
    · simp [div_fold, hx]
    · simp only [div_fold, if_neg hx, ih, List.mem_cons]
      constructor
      · rintro ⟨v, hv, hv0⟩; exact ⟨v, Or.inr hv, hv0⟩
      · rintro ⟨v, hv | hv, hv0⟩
        · exact absurd (hv.symm.trans hv0) hx
        · exact ⟨v, hv, hv0⟩

/-- C1: for any tag lowercasing to one of the four operation names and any
input list of length ≥ 2 (with nonzero divisors in the division case),
`compute_result` returns the sum, the head minus the sum of the rest, the
product, and the head divided by the product of the rest respectively;
and the four concrete examples from the spec evaluate as stated. -/
theorem compute_result_four_ops (tag : String) (inputs : List ℚ)
    (hlen : 2 ≤ inputs.length) :
    (lower tag = "addition" → compute_result tag inputs = Except.ok inputs.sum) ∧
    (lower tag = "subtraction" →
      compute_result tag inputs = Except.ok (inputs.headI - (inputs.drop 1).sum)) ∧
    (lower tag = "multiplication" → compute_result tag inputs = Except.ok inputs.prod) ∧
    (lower tag = "division" → (∀ v ∈ inputs.drop 1, v ≠ 0) →
      compute_result tag inputs = Except.ok (inputs.headI / (inputs.drop 1).prod)) ∧
    compute_result "addition" [1, 2, 3] = Except.ok 6 ∧
    compute_result "subtraction" [10, 2, 3] = Except.ok 5 ∧
    compute_result "multiplication" [2, 3, 4] = Except.ok 24 ∧
    compute_result "division" [100, 2, 5] = Except.ok 10 := by
  have hnl : ¬ inputs.length < 2 := not_lt.mpr hlen
  refine ⟨?_, ?_, ?_, ?_, ?_, ?_, ?_, ?_⟩
  · intro h; simp [compute_result, h, hnl]
  · intro h; simp [compute_result, h, hnl, foldl_sub_eq_sub_sum]
  · intro h; simp [compute_result, h, hnl, foldl_mul_eq_prod]
  · intro h hz
    have hz' : ∀ v ∈ inputs.tail, v ≠ 0 := by simpa [List.drop_one] using hz
    simp [compute_result, h, hnl, div_fold_ok _ _ hz', List.drop_one]
  · simp [compute_result, lower]; norm_num
  · simp [compute_result, lower]; norm_num
  · simp [compute_result, lower]; norm_num
  · simp [compute_result, lower, div_fold]; norm_num

/-- Concrete instantiation of `compute_result_four_ops` at an uppercase
tag and a three-element list. -/
theorem compute_result_four_ops_witness :
    2 ≤ ([1, 2, 3] : List ℚ).length ∧
    compute_result "ADDITION" [1, 2, 3] = Except.ok ([1, 2, 3] : List ℚ).sum :=
  ⟨by decide, (compute_result_four_ops "ADDITION" [1, 2, 3] (by decide)).1 (by decide)⟩

/-- C3: on a list of length ≥ 2, division fails with `DivisionByZero`
exactly when some input at index ≥ 1 is zero; with no zero divisor it
returns the successive quotient (regardless of the first input), and
`compute_result "division" [10, 0]` fails with `DivisionByZero`. -/
theorem compute_result_division_zero (inputs : List ℚ) (hlen : 2 ≤ inputs.length) :
    (compute_result "division" inputs = Except.error CalcError.DivisionByZero ↔
      ∃ v ∈ inputs.drop 1, v = 0) ∧
    ((∀ v ∈ inputs.drop 1, v ≠ 0) →
      compute_result "division" inputs = Except.ok (inputs.headI / (inputs.drop 1).prod)) ∧
    compute_result "division" [10, 0] = Except.error CalcError.DivisionByZero := by
  have hnl : ¬ inputs.length < 2 := not_lt.mpr hlen
  have hd : lower "division" = "division" := by decide
  refine ⟨?_, ?_, ?_⟩
  · simp [compute_result, hd, hnl, List.drop_one, div_fold_error_iff]
  · intro hz
    have hz' : ∀ v ∈ inputs.tail, v ≠ 0 := by simpa [List.drop_one] using hz
    simp [compute_result, hd, hnl, div_fold_ok _ _ hz', List.drop_one]
  · simp [compute_result, lower, div_fold]

/-- Concrete instantiation of `compute_result_division_zero` on the
spec's example list. -/
theorem compute_result_division_zero_witness :
    compute_result "division" [10, 0] = Except.error CalcError.DivisionByZero :=
  (compute_result_division_zero [10, 0] (by decide)).2.2

/-- C4: `compute_result` fails with `InvalidInput` whenever the input list
has fewer than two elements, and on lists of length ≥ 2 fails with
`UnsupportedOperation` whenever the lowercased tag is none of the four
recognized tags; `compute_result "addition" [5]` fails with `InvalidInput`
and `compute_result "bogus" [1, 2]` with `UnsupportedOperation`. -/
theorem compute_result_tag_validation (tag : String) (inputs : List ℚ) :
    (inputs.length < 2 → compute_result tag inputs = Except.error CalcError.InvalidInput) ∧
    (2 ≤ inputs.length →
      lower tag ≠ "addition" → lower tag ≠ "subtraction" →
      lower tag ≠ "multiplication" → lower tag ≠ "division" →
      compute_result tag inputs = Except.error (CalcError.UnsupportedOperation tag)) ∧
    compute_result "addition" [5] = Except.error CalcError.InvalidInput ∧
    compute_result "bogus" [1, 2] = Except.error (CalcError.UnsupportedOperation "bogus") := by
  refine ⟨?_, ?_, ?_, ?_⟩
  · intro h; simp [compute_result, h]
  · intro hlen h1 h2 h3 h4
    simp [compute_result, not_lt.mpr hlen, h1, h2, h3, h4]
  · simp [compute_result]
  · simp [compute_result, lower]

/-- Concrete instantiation of `compute_result_tag_validation`: the
unrecognized tag branch at "bogus" with two inputs. -/
theorem compute_result_tag_validation_witness :
    compute_result "bogus" [1, 2] = Except.error (CalcError.UnsupportedOperation "bogus") :=
  (compute_result_tag_validation "bogus" [1, 2]).2.1 (by decide)
    (by decide) (by decide) (by decide) (by decide)

/-- C10: the length check precedes the tag check: lists of fewer than two
elements always fail with `InvalidInput` (never `UnsupportedOperation`),
so an `UnsupportedOperation` failure implies the list had length ≥ 2;
`compute_result "bogus" [1]` fails with `InvalidInput`. -/
theorem compute_result_length_before_tag (tag : String) (inputs : List ℚ) :
    (inputs.length < 2 → compute_result tag inputs = Except.error CalcError.InvalidInput) ∧
    (∀ s, compute_result tag inputs = Except.error (CalcError.UnsupportedOperation s) →
      2 ≤ inputs.length) ∧
    compute_result "bogus" [1] = Except.error CalcError.InvalidInput := by
  refine ⟨fun h => by simp [compute_result, h], ?_, by simp [compute_result]⟩
  intro s h
  by_contra hc
  rw [not_le] at hc
  simp [compute_result, hc] at h

/-- Concrete instantiation of `compute_result_length_before_tag` at an
unrecognized tag with a single input. -/
theorem compute_result_length_before_tag_witness :
    compute_result "bogus" [1] = Except.error CalcError.InvalidInput :=
  (compute_result_length_before_tag "bogus" [1]).1 (by decide)

/-- A row of the `calculations` table (`Calculation` model): identifiers
and timestamps are modelled by naturals, numbers by `ℚ`. -/
structure CalculationRec where
  id : ℕ
  user_id : ℕ
  type : String
  inputs : List ℚ
  result : ℚ
  created_at : ℕ
  updated_at : ℕ
deriving DecidableEq

/-- The `ORDER BY created_at DESC` ordering on records. -/
def createdDesc (a b : CalculationRec) : Prop := b.created_at ≤ a.created_at

instance : DecidableRel createdDesc := fun _ _ => Nat.decLe _ _

instance : IsTotal CalculationRec createdDesc :=
  ⟨fun a b => le_total b.created_at a.created_at⟩

instance : IsTrans CalculationRec createdDesc :=
  ⟨fun _ _ _ hab hbc => le_trans hbc hab⟩

/-- `query.order_by(desc(Calculation.created_at))`: the records sorted by
creation time, newest first. -/
def sortByCreatedDesc (l : List CalculationRec) : List CalculationRec :=
  List.insertionSort createdDesc l

/-- The two `ValueError`s of `get_paginated_history`'s parameter
validation. -/
inductive PageError where
  | InvalidPage
  | InvalidPageSize
deriving DecidableEq

/-- The dictionary returned by `get_paginated_history`. -/
structure PaginatedHistory where
  calculations : List CalculationRec
  total : ℕ
  page : ℕ
  page_size : ℕ
  total_pages : ℕ
deriving DecidableEq

/-- `db.query(Calculation).filter(Calculation.user_id == user_id)`. -/
def ownRecords (db : List CalculationRec) (user_id : ℕ) : List CalculationRec :=
  db.filter (fun c => c.user_id == user_id)

/-- The base query of `get_paginated_history`: the owner's records,
further filtered by case-insensitive tag match when a (non-empty, per
Python truthiness) operation filter is given. -/
def historyQuery (db : List CalculationRec) (user_id : ℕ)
    (operation_filter : Option String) : List CalculationRec :=
  match operation_filter with
  | some f =>
      if f.isEmpty then ownRecords db user_id
      else (ownRecords db user_id).filter (fun c => lower c.type == lower f)
  | none => ownRecords db user_id

/-- `get_paginated_history` from `app/operations/statistics.py`: validate
page and page size, count the matching records, compute the page count
with `(total + page_size - 1) // page_size` (0 when no records), and slice
the creation-time-descending ordering with `offset`/`limit`. -/
def get_paginated_history (db : List CalculationRec) (user_id : ℕ)
    (page : ℤ) (page_size : ℤ) (operation_filter : Option String) :
    Except PageError PaginatedHistory :=
  if page < 1 then Except.error PageError.InvalidPage
  else if page_size < 1 ∨ 100 < page_size then Except.error PageError.InvalidPageSize
  else
    let query := historyQuery db user_id operation_filter
    let total := query.length
    let psz := page_size.toNat
    let total_pages := if 0 < total then (total + psz - 1) / psz else 0
    let calcs := ((sortByCreatedDesc query).drop ((page.toNat - 1) * psz)).take psz
    Except.ok ⟨calcs, total, page.toNat, psz, total_pages⟩

/-- A store of 25 records owned by user 7, created at 25 distinct times
(the population of the spec's pagination example). -/
def db25 : List CalculationRec :=
  (List.range 25).map (fun i => ⟨i, 7, "addition", [1, 2], 3, i, i⟩)

/-- C6: `get_paginated_history` fails with `InvalidPage` whenever
`page < 1`; for `page ≥ 1` it fails with `InvalidPageSize` whenever
`page_size` is outside `[1, 100]`; within bounds it never fails; and
`page = 0` and `page_size = 101` each hit their respective bounds error. -/
theorem paginated_history_bounds (db : List CalculationRec) (uid : ℕ)
    (page psz : ℤ) (filt : Option String) :
    (page < 1 →
      get_paginated_history db uid page psz filt = Except.error PageError.InvalidPage) ∧
    (1 ≤ page → (psz < 1 ∨ 100 < psz) →
      get_paginated_history db uid page psz filt = Except.error PageError.InvalidPageSize) ∧
    (1 ≤ page → 1 ≤ psz → psz ≤ 100 →
      ∃ h, get_paginated_history db uid page psz filt = Except.ok h) ∧
    get_paginated_history db uid 0 10 filt = Except.error PageError.InvalidPage ∧
    get_paginated_history db uid 1 101 filt = Except.error PageError.InvalidPageSize := by
  refine ⟨?_, ?_, ?_, ?_, ?_⟩
  · intro h
    simp only [get_paginated_history, if_pos h]
  · intro h1 h2
    simp only [get_paginated_history, if_neg (not_lt.mpr h1), if_pos h2]
  · intro h1 h2 h3
    have hns : ¬ (psz < 1 ∨ 100 < psz) := not_or.mpr ⟨not_lt.mpr h2, not_lt.mpr h3⟩
    simp only [get_paginated_history, if_neg (not_lt.mpr h1), if_neg hns]
    exact ⟨_, rfl⟩
  · simp only [get_paginated_history, if_pos (by norm_num : (0 : ℤ) < 1)]
  · have hns : (101 : ℤ) < 1 ∨ (100 : ℤ) < 101 := Or.inr (by norm_num)
    simp only [get_paginated_history, if_neg (by norm_num : ¬ (1 : ℤ) < 1), if_pos hns]

/-- Concrete instantiation of `paginated_history_bounds`: page 0 on an
empty store is rejected. -/
theorem paginated_history_bounds_witness :
    get_paginated_history [] 0 0 10 none = Except.error PageError.InvalidPage :=
  (paginated_history_bounds [] 0 0 10 none).1 (by decide)

/-- C5: for `page ≥ 1` and `page_size ∈ [1, 100]`, the paginated history
reports the pre-pagination matching count, echoes page and page size,
computes the page count as the ceiling of `total / page_size` (0 when
`total = 0`), and returns at most `page_size` records: the slice starting
at offset `(page - 1) * page_size` of some creation-time-descending
ordering of the matching records; over the 25-record store, page 1 of
size 10 has 10 records with `total = 25` and `total_pages = 3`, and
page 3 has the remaining 5. -/
theorem paginated_history_page (db : List CalculationRec) (uid : ℕ)
    (page psz : ℤ) (filt : Option String)
    (hp : 1 ≤ page) (h1 : 1 ≤ psz) (h2 : psz ≤ 100) :
    ∃ h, get_paginated_history db uid page psz filt = Except.ok h ∧
      h.total = (historyQuery db uid filt).length ∧
      h.page = page.toNat ∧
      h.page_size = psz.toNat ∧
      (h.total = 0 → h.total_pages = 0) ∧
      h.total_pages = h.total ⌈/⌉ psz.toNat ∧
      (∃ l, l.Perm (historyQuery db uid filt) ∧ List.Sorted createdDesc l ∧
        h.calculations = (l.drop ((page.toNat - 1) * psz.toNat)).take psz.toNat) ∧
      h.calculations.length ≤ psz.toNat ∧
      (get_paginated_history db25 7 1 10 none).map
        (fun r => (r.calculations.length, r.total, r.total_pages)) = Except.ok (10, 25, 3) ∧
      (get_paginated_history db25 7 3 10 none).map
        (fun r => (r.calculations.length, r.total, r.total_pages)) = Except.ok (5, 25, 3) := by
  have hs : 1 ≤ psz.toNat := by omega
  have hns : ¬ (psz < 1 ∨ 100 < psz) := not_or.mpr ⟨not_lt.mpr h1, not_lt.mpr h2⟩
  simp only [get_paginated_history, if_neg (not_lt.mpr hp), if_neg hns]
  refine ⟨_, rfl, rfl, rfl, rfl, ?_, ?_,
    ⟨sortByCreatedDesc (historyQuery db uid filt),
      List.perm_insertionSort _ _, List.sorted_insertionSort _ _, rfl⟩,
    List.length_take_le _ _, by rfl, by rfl⟩
  · intro h0
    have h0' : (historyQuery db uid filt).length = 0 := h0
    simp [h0']
  · by_cases ht : 0 < (historyQuery db uid filt).length
    · rw [if_pos ht, Nat.ceilDiv_eq_add_pred_div]
    · have h0 : (historyQuery db uid filt).length = 0 := by omega
      rw [if_neg ht, h0, Nat.ceilDiv_eq_add_pred_div, Nat.zero_add,
        Nat.div_eq_of_lt (by omega)]

/-- Concrete instantiation of `paginated_history_page` at page 1 of size
10 over the empty store. -/
theorem paginated_history_page_witness :
    (1 : ℤ) ≤ 1 ∧ (1 : ℤ) ≤ 10 ∧ (10 : ℤ) ≤ 100 ∧
    ∃ h, get_paginated_history ([] : List CalculationRec) 0 1 10 none = Except.ok h :=
  ⟨by decide, by decide, by decide,
    Exists.elim (paginated_history_page [] 0 1 10 none (by decide) (by decide) (by decide))
      (fun h hh => ⟨h, hh.1⟩)⟩

/-- Python's `round(x, 2)`: rounding to two decimal places (the claims do
not depend on the tie-breaking convention). -/
def round2 (q : ℚ) : ℚ := ((round (q * 100) : ℤ) : ℚ) / 100

/-- Python's `min` over a list of numbers (0 on the empty list, which the
source never hits). -/
def pyMin : List ℚ → ℚ
  | [] => 0
  | x :: xs => xs.foldl min x

/-- Python's `max` over a list of numbers (0 on the empty list, which the
source never hits). -/
def pyMax : List ℚ → ℚ
  | [] => 0
  | x :: xs => xs.foldl max x

/-- A running minimum over a list lands on the seed or on a list element. -/
theorem foldl_min_mem (xs : List ℚ) (a : ℚ) : xs.foldl min a ∈ a :: xs := by
  induction xs generalizing a with
  | nil => simp
  | cons x xs ih =>
    simp only [List.foldl_cons]
    rcases List.mem_cons.mp (ih (min a x)) with h | h
    · rcases min_choice a x with hm | hm
      · rw [h, hm]; exact List.mem_cons_self a _
      · rw [h, hm]; exact List.mem_cons_of_mem _ (List.mem_cons_self x xs)
    · exact List.mem_cons_of_mem _ (List.mem_cons_of_mem _ h)

/-- A running minimum bounds the seed and every list element from below. -/
theorem foldl_min_le (xs : List ℚ) (a : ℚ) :
    xs.foldl min a ≤ a ∧ ∀ v ∈ xs, xs.foldl min a ≤ v := by
  induction xs generalizing a with
  | nil => exact ⟨le_rfl, by simp⟩
  | cons x xs ih =>
    obtain ⟨h1, h2⟩ := ih (min a x)
    refine ⟨h1.trans (min_le_left a x), ?_⟩
    intro v hv
    rcases List.mem_cons.mp hv with heq | hv
    · rw [heq]; exact h1.trans (min_le_right a x)
    · exact h2 v hv

/-- A running maximum over a list lands on the seed or on a list element. -/
theorem foldl_max_mem (xs : List ℚ) (a : ℚ) : xs.foldl max a ∈ a :: xs := by
  induction xs generalizing a with
  | nil => simp
  | cons x xs ih =>
    simp only [List.foldl_cons]
    rcases List.mem_cons.mp (ih (max a x)) with h | h
    · rcases max_choice a x with hm | hm
      · rw [h, hm]; exact List.mem_cons_self a _
      · rw [h, hm]; exact List.mem_cons_of_mem _ (List.mem_cons_self x xs)
    · exact List.mem_cons_of_mem _ (List.mem_cons_of_mem _ h)

/-- A running maximum bounds the seed and every list element from above. -/
theorem le_foldl_max (xs : List ℚ) (a : ℚ) :
    a ≤ xs.foldl max a ∧ ∀ v ∈ xs, v ≤ xs.foldl max a := by
  induction xs generalizing a with
  | nil => exact ⟨le_rfl, by simp⟩
  | cons x xs ih =>
    obtain ⟨h1, h2⟩ := ih (max a x)
    refine ⟨(le_max_left a x).trans h1, ?_⟩
    intro v hv
    rcases List.mem_cons.mp hv with heq | hv
    · rw [heq]; exact (le_max_right a x).trans h1
    · exact h2 v hv

/-- On a non-empty list, `pyMin` is an element of the list. -/
theorem pyMin_mem (l : List ℚ) (h : l ≠ []) : pyMin l ∈ l := by
  match l, h with
  | x :: xs, _ => exact foldl_min_mem xs x

/-- `pyMin` is a lower bound of the list. -/
theorem pyMin_le (l : List ℚ) : ∀ v ∈ l, pyMin l ≤ v := by
  match l with
  | [] => simp
  | x :: xs =>
    intro v hv
    rcases List.mem_cons.mp hv with rfl | hv
    · exact (foldl_min_le xs v).1
    · exact (foldl_min_le xs x).2 v hv

/-- On a non-empty list, `pyMax` is an element of the list. -/
theorem pyMax_mem (l : List ℚ) (h : l ≠ []) : pyMax l ∈ l := by
  match l, h with
  | x :: xs, _ => exact foldl_max_mem xs x

/-- `pyMax` is an upper bound of the list. -/
theorem le_pyMax (l : List ℚ) : ∀ v ∈ l, v ≤ pyMax l := by
  match l with
  | [] => simp
  | x :: xs =>
    intro v hv
    rcases List.mem_cons.mp hv with rfl | hv
    · exact (le_foldl_max xs v).1
    · exact (le_foldl_max xs x).2 v hv

/-- The dictionary returned by `get_operation_statistics`. -/
structure OperationStats where
  count : ℕ
  average_inputs_count : Option ℚ
  average_result : Option ℚ
  min_result : Option ℚ
  max_result : Option ℚ
deriving DecidableEq

/-- The query of `get_operation_statistics`: the caller's records whose
tag matches the requested operation case-insensitively. -/
def opMatching (db : List CalculationRec) (uid : ℕ) (operation : String) :
    List CalculationRec :=
  db.filter (fun c => c.user_id == uid && lower c.type == lower operation)

/-- `get_operation_statistics` from `app/operations/statistics.py`:
count 0 and `None` fields when nothing matches, otherwise count, the two
averages and the extreme results, each rounded to two decimals. -/
def get_operation_statistics (db : List CalculationRec) (uid : ℕ)
    (operation : String) : OperationStats :=
  let calculations := opMatching db uid operation
  if calculations.isEmpty then ⟨0, none, none, none, none⟩
  else
    let result_values := calculations.map (fun c => c.result)
    let inputs_counts := calculations.map (fun c => (c.inputs.length : ℚ))
    ⟨calculations.length,
      some (round2 (inputs_counts.sum / (calculations.length : ℚ))),
      some (round2 (result_values.sum / (calculations.length : ℚ))),
      some (round2 (pyMin result_values)),
      some (round2 (pyMax result_values))⟩

/-- C8: the per-operation summary filters the caller's records by
case-insensitive exact tag match; with no match it returns count 0 and
`None` for all four numeric fields; otherwise it returns the match count,
the two averages rounded to two decimals, and the true minimum and
maximum result rounded to two decimals. -/
theorem operation_statistics_summary (db : List CalculationRec) (uid : ℕ) (op : String) :
    (opMatching db uid op = [] →
      get_operation_statistics db uid op = ⟨0, none, none, none, none⟩) ∧
    (opMatching db uid op ≠ [] →
      (get_operation_statistics db uid op).count = (opMatching db uid op).length ∧
      (∃ q : ℚ, (get_operation_statistics db uid op).average_inputs_count = some (round2 q) ∧
        q * ((opMatching db uid op).length : ℚ) =
          ((opMatching db uid op).map (fun c => (c.inputs.length : ℚ))).sum) ∧
      (∃ q : ℚ, (get_operation_statistics db uid op).average_result = some (round2 q) ∧
        q * ((opMatching db uid op).length : ℚ) =
          ((opMatching db uid op).map (fun c => c.result)).sum) ∧
      (∃ m : ℚ, (get_operation_statistics db uid op).min_result = some (round2 m) ∧
        m ∈ (opMatching db uid op).map (fun c => c.result) ∧
        ∀ r ∈ (opMatching db uid op).map (fun c => c.result), m ≤ r) ∧
      (∃ m : ℚ, (get_operation_statistics db uid op).max_result = some (round2 m) ∧
        m ∈ (opMatching db uid op).map (fun c => c.result) ∧
        ∀ r ∈ (opMatching db uid op).map (fun c => c.result), r ≤ m)) := by
  constructor
  · intro h
    simp [get_operation_statistics, h]
  · intro h
    have hne : (opMatching db uid op).isEmpty = false := by
      cases hM : opMatching db uid op with
      | nil => exact absurd hM h
      | cons a l => rfl
    have hlQ : ((opMatching db uid op).length : ℚ) ≠ 0 := by
      have := List.length_pos.mpr h
      exact_mod_cast Nat.pos_iff_ne_zero.mp this
    have hmape : (opMatching db uid op).map (fun c => c.result) ≠ [] := by
      simp [h]
    have hgo : get_operation_statistics db uid op =
        ⟨(opMatching db uid op).length,
          some (round2 (((opMatching db uid op).map (fun c => (c.inputs.length : ℚ))).sum /
            ((opMatching db uid op).length : ℚ))),
          some (round2 (((opMatching db uid op).map (fun c => c.result)).sum /
            ((opMatching db uid op).length : ℚ))),
          some (round2 (pyMin ((opMatching db uid op).map (fun c => c.result)))),
          some (round2 (pyMax ((opMatching db uid op).map (fun c => c.result))))⟩ := by
      simp only [get_operation_statistics, hne, Bool.false_eq_true, if_false]
    refine ⟨?_, ⟨_, ?_, div_mul_cancel₀ _ hlQ⟩, ⟨_, ?_, div_mul_cancel₀ _ hlQ⟩,
      ⟨pyMin _, ?_, pyMin_mem _ hmape, pyMin_le _⟩,
      ⟨pyMax _, ?_, pyMax_mem _ hmape, le_pyMax _⟩⟩ <;> rw [hgo]

/-- Concrete instantiation of `operation_statistics_summary`: one
matching record under a differently-cased tag. -/
theorem operation_statistics_summary_witness :
    (get_operation_statistics [⟨1, 3, "Addition", [1, 2, 3], 6, 5, 5⟩] 3 "ADDITION").count = 1 :=
  (((operation_statistics_summary [⟨1, 3, "Addition", [1, 2, 3], 6, 5, 5⟩] 3
    "ADDITION").2 (by decide)).1).trans (by decide)

/-- Python-dict tallying: `m[k] = m.get(k, 0) + 1`, preserving insertion
order of keys. -/
def tallyAdd {α : Type} [DecidableEq α] (m : List (α × ℕ)) (k : α) : List (α × ℕ) :=
  match m.lookup k with
  | some n => m.map (fun p => if p.1 = k then (k, n + 1) else p)
  | none => m ++ [(k, 1)]

/-- Python's `max(items, key=count)` over a tally: the first entry with
the highest count (`None` when the tally is empty). -/
def maxByCount (m : List (String × ℕ)) : Option String :=
  match m with
  | [] => none
  | p :: ps => some (ps.foldl (fun best q => if best.2 < q.2 then q else best) p).1

/-- `get_calculations_by_day` from `app/operations/statistics.py`: counts
of the caller's records per day (creation timestamp divided into 86400-
second days) over the trailing window of `days` days ending at `now`. -/
def get_calculations_by_day (db : List CalculationRec) (uid : ℕ)
    (now : ℕ) (days : ℕ) : List (ℕ × ℕ) :=
  let start := now - days * 86400
  let results := db.filter
    (fun c => (c.user_id == uid) &&
      (decide (start ≤ c.created_at) && decide (c.created_at ≤ now)))
  results.foldl (fun m c => tallyAdd m (c.created_at / 86400)) []

/-- The dictionary returned by `calculate_user_statistics`. -/
structure UserStats where
  total_calculations : ℕ
  operations_breakdown : List (String × ℕ)
  average_inputs_count : Option ℚ
  average_result : Option ℚ
  most_used_operation : Option String
  recent_calculations : List CalculationRec
  calculations_by_day : List (ℕ × ℕ)
deriving DecidableEq

/-- `calculate_user_statistics` from `app/operations/statistics.py`: the
zeroed/empty dictionary when the user has no records, otherwise the
breakdown by lowercased tag, the two rounded averages, the most-used
tag, the ten most recent records and the 30-day daily counts. -/
def calculate_user_statistics (db : List CalculationRec) (uid : ℕ)
    (now : ℕ) : UserStats :=
  let calculations := ownRecords db uid
  let total := calculations.length
  if total = 0 then ⟨0, [], none, none, none, [], []⟩
  else
    let breakdown := calculations.foldl (fun m c => tallyAdd m (lower c.type)) []
    let result_sum := (calculations.map (fun c => c.result)).sum
    let inputs_count_sum := (calculations.map (fun c => (c.inputs.length : ℚ))).sum
    ⟨total, breakdown,
      some (round2 (inputs_count_sum / (total : ℚ))),
      some (round2 (result_sum / (total : ℚ))),
      maxByCount breakdown,
      (sortByCreatedDesc (ownRecords db uid)).take 10,
      get_calculations_by_day db uid now 30⟩

/-- C9: on a user with no records, the user summary never fails and is
the zeroed dictionary: total 0, empty breakdown, `None` averages, `None`
most-used operation, no recent records and an empty by-day mapping. -/
theorem user_statistics_empty (db : List CalculationRec) (uid : ℕ) (now : ℕ)
    (h : ownRecords db uid = []) :
    calculate_user_statistics db uid now = ⟨0, [], none, none, none, [], []⟩ := by
  simp [calculate_user_statistics, h]

/-- Concrete instantiation of `user_statistics_empty` on the empty
store. -/
theorem user_statistics_empty_witness :
    calculate_user_statistics [] 0 0 = ⟨0, [], none, none, none, [], []⟩ :=
  user_statistics_empty [] 0 0 rfl

/-- The HTTP-visible failures of the single-record routes: 400 with the
engine's validation message, or 404 "Calculation not found.". -/
inductive ApiError where
  | BadRequest (e : CalcError)
  | NotFound
deriving DecidableEq

/-- The routes' record lookup:
`db.query(Calculation).filter(Calculation.id == calc_uuid,
Calculation.user_id == current_user.id).first()`. -/
def findOwned (db : List CalculationRec) (uid cid : ℕ) : Option CalculationRec :=
  (db.filter (fun c => (c.id == cid) && (c.user_id == uid))).head?

/-- The GET `/calculations/{calc_id}` route body (after UUID parsing). -/
def get_calculation (db : List CalculationRec) (uid cid : ℕ) :
    Except ApiError CalculationRec :=
  match findOwned db uid cid with
  | none => Except.error ApiError.NotFound
  | some c => Except.ok c

/-- The `CalculationUpdate` payload: optional new tag and inputs. -/
structure CalculationUpdate where
  type : Option String
  inputs : Option (List ℚ)
deriving DecidableEq

/-- `new_type = calculation_update.type or c0.type` (Python `or`:
`None` and the empty string fall back to the stored tag). -/
def newTypeOf (upd : CalculationUpdate) (c : CalculationRec) : String :=
  match upd.type with
  | some t => if t.isEmpty then c.type else t
  | none => c.type

/-- `new_inputs = calculation_update.inputs or c0.inputs` (Python `or`:
`None` and the empty list fall back to the stored inputs). -/
def newInputsOf (upd : CalculationUpdate) (c : CalculationRec) : List ℚ :=
  match upd.inputs with
  | some l => if l.isEmpty then c.inputs else l
  | none => c.inputs

/-- The updated PUT `/calculations/{calc_id}` route body: find the owned
record, recompute the result from the merged tag and inputs, and
overwrite tag, inputs, result and `updated_at`. -/
def update_calculation (db : List CalculationRec) (uid cid : ℕ)
    (upd : CalculationUpdate) (now : ℕ) :
    Except ApiError (CalculationRec × List CalculationRec) :=
  match findOwned db uid cid with
  | none => Except.error ApiError.NotFound
  | some c0 =>
    match compute_result (newTypeOf upd c0) (newInputsOf upd c0) with
    | Except.error e => Except.error (ApiError.BadRequest e)
    | Except.ok r =>
      let c2 : CalculationRec :=
        ⟨c0.id, c0.user_id, newTypeOf upd c0, newInputsOf upd c0, r,
          c0.created_at, now⟩
      Except.ok (c2, db.map (fun c => if c.id = c0.id then c2 else c))

/-- The DELETE `/calculations/{calc_id}` route body. -/
def delete_calculation (db : List CalculationRec) (uid cid : ℕ) :
    Except ApiError (List CalculationRec) :=
  match findOwned db uid cid with
  | none => Except.error ApiError.NotFound
  | some c0 => Except.ok (db.erase c0)

/-- The first record of the filtered store is the unique record with the
looked-up id when that record is owned by the caller. -/
theorem findOwned_of_mem (db : List CalculationRec) (uid cid : ℕ)
    (c0 : CalculationRec) (hmem : c0 ∈ db) (hid : c0.id = cid)
    (hown : c0.user_id = uid) (huniq : ∀ c ∈ db, c.id = cid → c = c0) :
    findOwned db uid cid = some c0 := by
  unfold findOwned
  induction db with
  | nil => cases hmem
  | cons d ds ih =>
    by_cases hdc : d = c0
    · have hp : ((d.id == cid) && (d.user_id == uid)) = true := by
        subst hdc; simp [hid, hown]
      simp [List.filter_cons, hp, hdc, hid, hown]
    · have hdid : d.id ≠ cid := fun h => hdc (huniq d (List.mem_cons_self d ds) h)
      have hp : ((d.id == cid) && (d.user_id == uid)) = false := by
        simp [hdid]
      have hmem' : c0 ∈ ds := by
        rcases List.mem_cons.mp hmem with heq | h'
        · exact absurd heq.symm hdc
        · exact h'
      have huniq' : ∀ c ∈ ds, c.id = cid → c = c0 :=
        fun c hc => huniq c (List.mem_cons_of_mem d hc)
      simp only [List.filter_cons, hp, Bool.false_eq_true, if_false]
      exact ih hmem' huniq'

/-- C2: updating an existing record owned by the caller (the unique
record with the looked-up id) recomputes and overwrites the stored
result, so that afterwards the record's result is `compute_result` of its
new tag and new inputs, and `updated_at` is set to the current time; when
the update supplies no new inputs the recomputation runs over the new tag
and the existing inputs, and when it supplies no new tag the existing tag
is kept. -/
theorem update_recomputes (db : List CalculationRec) (uid cid : ℕ)
    (c0 : CalculationRec) (upd : CalculationUpdate) (now : ℕ) (r : ℚ)
    (hmem : c0 ∈ db) (hid : c0.id = cid) (hown : c0.user_id = uid)
    (huniq : ∀ c ∈ db, c.id = cid → c = c0)
    (hcomp : compute_result (newTypeOf upd c0) (newInputsOf upd c0) = Except.ok r) :
    ∃ c2 db2, update_calculation db uid cid upd now = Except.ok (c2, db2) ∧
      c2.type = newTypeOf upd c0 ∧
      c2.inputs = newInputsOf upd c0 ∧
      c2.result = r ∧
      c2.updated_at = now ∧
      compute_result c2.type c2.inputs = Except.ok c2.result ∧
      c2 ∈ db2 ∧
      (upd.inputs = none → c2.inputs = c0.inputs) ∧
      (upd.type = none → c2.type = c0.type) := by
  have hfind : findOwned db uid cid = some c0 :=
    findOwned_of_mem db uid cid c0 hmem hid hown huniq
  refine ⟨⟨c0.id, c0.user_id, newTypeOf upd c0, newInputsOf upd c0, r, c0.created_at, now⟩,
    db.map (fun c => if c.id = c0.id then
      ⟨c0.id, c0.user_id, newTypeOf upd c0, newInputsOf upd c0, r, c0.created_at, now⟩ else c),
    ?_, rfl, rfl, rfl, rfl, hcomp, ?_, ?_, ?_⟩
  · simp only [update_calculation, hfind, hcomp]
  · exact List.mem_map.mpr ⟨c0, hmem, by simp⟩
  · intro h; simp [newInputsOf, h]
  · intro h; simp [newTypeOf, h]

/-- Concrete instantiation of `update_recomputes`: a type-only update of
a stored addition to a multiplication. -/
theorem update_recomputes_witness :
    ∃ c2 db2, update_calculation [⟨1, 4, "addition", [2, 3], 5, 0, 0⟩] 4 1
      ⟨some "multiplication", none⟩ 9 = Except.ok (c2, db2) ∧
      c2.result = 6 ∧ c2.updated_at = 9 :=
  Exists.elim (update_recomputes [⟨1, 4, "addition", [2, 3], 5, 0, 0⟩] 4 1
      ⟨1, 4, "addition", [2, 3], 5, 0, 0⟩ ⟨some "multiplication", none⟩ 9 6
      (List.mem_singleton.mpr rfl) rfl rfl
      (fun c hc _ => List.mem_singleton.mp hc)
      (by
        show compute_result "multiplication" [2, 3] = Except.ok 6
        simp [compute_result, lower]
        norm_num))
    (fun c2 h2 => Exists.elim h2 (fun db2 h3 => ⟨c2, db2, h3.1, h3.2.2.2.1, h3.2.2.2.2.1⟩))

/-- Filtering by ownership and a further predicate gives the same records
whether run on the full store or on the owner's records. -/
theorem filter_own_and (db : List CalculationRec) (uid : ℕ) (p : CalculationRec → Bool) :
    (ownRecords db uid).filter (fun c => (c.user_id == uid) && p c) =
      db.filter (fun c => (c.user_id == uid) && p c) := by
  unfold ownRecords
  rw [List.filter_filter]
  apply List.filter_congr
  intro c _
  cases h : (c.user_id == uid) <;> simp [h]

/-- Restricting to the owner's records is idempotent. -/
theorem ownRecords_idem (db : List CalculationRec) (uid : ℕ) :
    ownRecords (ownRecords db uid) uid = ownRecords db uid := by
  unfold ownRecords
  rw [List.filter_filter]
  apply List.filter_congr
  intro c _
  cases h : (c.user_id == uid) <;> simp [h]

/-- The paginated-history query sees only the owner's records. -/
theorem historyQuery_own (db : List CalculationRec) (uid : ℕ) (filt : Option String) :
    historyQuery (ownRecords db uid) uid filt = historyQuery db uid filt := by
  unfold historyQuery
  cases filt with
  | none => exact ownRecords_idem db uid
  | some f =>
    by_cases hf : f.isEmpty
    · simp [hf, ownRecords_idem]
    · simp [hf, ownRecords_idem]

/-- The per-operation query sees only the owner's records. -/
theorem opMatching_own (db : List CalculationRec) (uid : ℕ) (op : String) :
    opMatching (ownRecords db uid) uid op = opMatching db uid op :=
  filter_own_and db uid _

/-- The daily-count query sees only the owner's records. -/
theorem calculations_by_day_own (db : List CalculationRec) (uid now days : ℕ) :
    get_calculations_by_day (ownRecords db uid) uid now days =
      get_calculations_by_day db uid now days := by
  simp only [get_calculations_by_day]
  rw [filter_own_and]

/-- C7: when no record with the looked-up id is owned by the caller —
whether the id belongs to another user's record or to no record at all —
the single-record read, update and delete routes all answer exactly
`NotFound`; and every aggregation over the full store equals the same
aggregation over the caller's own records only, so records of other
users never contribute to it. -/
theorem ownership_isolation (db : List CalculationRec) (uid cid : ℕ)
    (upd : CalculationUpdate) (now : ℕ) (page psz : ℤ) (filt : Option String)
    (op : String) :
    ((∀ c ∈ db, c.id = cid → c.user_id ≠ uid) →
      get_calculation db uid cid = Except.error ApiError.NotFound ∧
      update_calculation db uid cid upd now = Except.error ApiError.NotFound ∧
      delete_calculation db uid cid = Except.error ApiError.NotFound) ∧
    calculate_user_statistics db uid now =
      calculate_user_statistics (ownRecords db uid) uid now ∧
    get_paginated_history db uid page psz filt =
      get_paginated_history (ownRecords db uid) uid page psz filt ∧
    get_operation_statistics db uid op =
      get_operation_statistics (ownRecords db uid) uid op := by
  refine ⟨?_, ?_, ?_, ?_⟩
  · intro h
    have hf : db.filter (fun c => (c.id == cid) && (c.user_id == uid)) = [] := by
      rw [List.filter_eq_nil_iff]
      intro c hc
      simp only [Bool.and_eq_true, beq_iff_eq, not_and]
      exact h c hc
    refine ⟨?_, ?_, ?_⟩
    · simp [get_calculation, findOwned, hf]
    · simp [update_calculation, findOwned, hf]
    · simp [delete_calculation, findOwned, hf]
  · simp only [calculate_user_statistics, ownRecords_idem, calculations_by_day_own]
  · simp only [get_paginated_history, historyQuery_own]
  · simp only [get_operation_statistics, opMatching_own]

/-- Concrete instantiation of `ownership_isolation`: user 9 reads a
record owned by user 5 and gets `NotFound`. -/
theorem ownership_isolation_witness :
    get_calculation [⟨1, 5, "addition", [1, 2], 3, 0, 0⟩] 9 1 =
      Except.error ApiError.NotFound :=
  (((ownership_isolation [⟨1, 5, "addition", [1, 2], 3, 0, 0⟩] 9 1
    ⟨none, none⟩ 0 1 10 none "addition").1) (by decide)).1
